import Mathlib

/-
Shallow embedding of src/main.cpp (GenericFSM): a telephone-call finite
state machine whose states are Idle, PhoneRinging and InCall, driven by
events produced by a cyclic event source.

Modelling conventions:
- A C++ OpHandler (void(*)()) only prints one line; it is modelled by the
  String it prints.
- std::map<Event, OpHandler>::operator[] on a missing key value-initializes
  the slot to a null function pointer, which do_op then calls: undefined
  behavior (a crash).  A do_op call on a missing key is therefore modelled
  as none.
- The three State instances are stateless beyond their event maps, so a
  std::shared_ptr<State> is modelled by the pointee's StateDescriptor;
  nullptr is none.
- get_event's static int counter is made an explicit state argument; the
  throw on the fall-through branch is modelled as none.
-/

inductive Event where
  | INCOMING_CALL
  | CALL_DECLINED
  | CALL_ANSWERED
  | CALL_ENDED
deriving DecidableEq, Fintype

inductive StateDescriptor where
  | IDLE
  | PHONE_RING
  | IN_CALL
deriving DecidableEq, Fintype

/-- A C++ OpHandler prints a single line; it is modelled by that line. -/
abbrev OpHandler := String

/-- The line printed by Idle::incoming_call_handler. -/
def Idle.incoming_call_handler : OpHandler := "Phone started ringing\n"

/-- Idle's handler_map, as populated in the Idle constructor. -/
def Idle.handler_map : Event → Option OpHandler
  | Event.INCOMING_CALL => some Idle.incoming_call_handler
  | _ => none

/-- Idle::do_op executes handler_map[e]().  On a missing key, operator[]
inserts a null pointer which is then called: undefined behavior, modelled
as none; on a present key the handler runs and prints its line. -/
def Idle.do_op (e : Event) : Option String := Idle.handler_map e

/-- The line printed by PhoneRinging::call_answered_handler. -/
def PhoneRinging.call_answered_handler : OpHandler :=
  "Call answered. Starting conversation\n"

/-- The line printed by PhoneRinging::call_declined_handler. -/
def PhoneRinging.call_declined_handler : OpHandler := "Call declined\n"

/-- PhoneRinging's handler_map, as populated in its constructor. -/
def PhoneRinging.handler_map : Event → Option OpHandler
  | Event.CALL_ANSWERED => some PhoneRinging.call_answered_handler
  | Event.CALL_DECLINED => some PhoneRinging.call_declined_handler
  | _ => none

/-- PhoneRinging::do_op executes handler_map[e]() (see Idle.do_op). -/
def PhoneRinging.do_op (e : Event) : Option String := PhoneRinging.handler_map e

/-- The line printed by InCall::call_ended_handler. -/
def InCall.call_ended_handler : OpHandler := "Call ended\n"

/-- InCall's handler_map, as populated in its constructor. -/
def InCall.handler_map : Event → Option OpHandler
  | Event.CALL_ENDED => some InCall.call_ended_handler
  | _ => none

/-- InCall::do_op executes handler_map[e]() (see Idle.do_op). -/
def InCall.do_op (e : Event) : Option String := InCall.handler_map e

/-- Virtual dispatch of State::do_op over the three concrete states,
identified by their descriptors. -/
def State.do_op : StateDescriptor → Event → Option String
  | StateDescriptor.IDLE, e => Idle.do_op e
  | StateDescriptor.PHONE_RING, e => PhoneRinging.do_op e
  | StateDescriptor.IN_CALL, e => InCall.do_op e

/-- TransitionManager::mapping exactly as assigned, cell by cell, in the
TransitionManager constructor.  A shared_ptr<State> cell is modelled by the
pointee's StateDescriptor; nullptr is none. -/
def TransitionManager.mapping : StateDescriptor → Event → Option StateDescriptor
  | StateDescriptor.IDLE, Event.INCOMING_CALL => some StateDescriptor.PHONE_RING
  | StateDescriptor.IDLE, Event.CALL_ANSWERED => none
  | StateDescriptor.IDLE, Event.CALL_DECLINED => none
  | StateDescriptor.IDLE, Event.CALL_ENDED => none
  | StateDescriptor.PHONE_RING, Event.INCOMING_CALL => none
  | StateDescriptor.PHONE_RING, Event.CALL_ANSWERED => some StateDescriptor.IN_CALL
  | StateDescriptor.PHONE_RING, Event.CALL_DECLINED => some StateDescriptor.IDLE
  | StateDescriptor.PHONE_RING, Event.CALL_ENDED => none
  | StateDescriptor.IN_CALL, Event.INCOMING_CALL => none
  | StateDescriptor.IN_CALL, Event.CALL_ANSWERED => none
  | StateDescriptor.IN_CALL, Event.CALL_DECLINED => none
  | StateDescriptor.IN_CALL, Event.CALL_ENDED => some StateDescriptor.IDLE

/-- TransitionManager::get_next_state reads the mapping cell. -/
def TransitionManager.get_next_state (sd : StateDescriptor) (event : Event) :
    Option StateDescriptor :=
  TransitionManager.mapping sd event

/-- get_event with its static counter made explicit: given the counter's
value on entry it returns the produced Event and the counter's value after
the call, or none for the throwing fall-through branch. -/
def get_event : Nat → Option (Event × Nat)
  | 0 => some (Event.INCOMING_CALL, 1)
  | 1 => some (Event.CALL_ANSWERED, 2)
  | 2 => some (Event.CALL_ENDED, 0)
  | _ => none

/-- n successive calls to get_event starting from counter value c: the list
of produced events and the final counter, or none if any call throws. -/
def run_get_event : Nat → Nat → Option (List Event × Nat)
  | c, 0 => some ([], c)
  | c, Nat.succ n =>
    match get_event c with
    | none => none
    | some (e, c2) =>
      match run_get_event c2 n with
      | none => none
      | some (es, c3) => some (e :: es, c3)

/-- The FSM class: its one field is the current_state shared_ptr, which the
run loop can overwrite with the (possibly null) table cell. -/
structure FSM where
  current_state : Option StateDescriptor
deriving DecidableEq

/-- The FSM constructor: current_state starts as a fresh Idle instance. -/
def FSM.init : FSM := ⟨some StateDescriptor.IDLE⟩

/-- One iteration of FSM::run after the wakeup, applied to event e:
current_state->do_op(e), then current_state is reassigned from
get_next_state.  none models a crash: either current_state was null and is
dereferenced, or do_op called a null handler (undefined behavior). -/
def FSM.step (fsm : FSM) (e : Event) : Option (FSM × String) :=
  match fsm.current_state with
  | none => none
  | some sd =>
    match State.do_op sd e with
    | none => none
    | some out => some (⟨TransitionManager.get_next_state sd e⟩, out)

/-- Iterating FSM::run over a list of delivered events, collecting the
printed lines; none if any iteration crashes. -/
def FSM.runEvents (fsm : FSM) : List Event → Option (FSM × List String)
  | [] => some (fsm, [])
  | e :: es =>
    match fsm.step e with
    | none => none
    | some (fsm2, out) =>
      match fsm2.runEvents es with
      | none => none
      | some (fsm3, outs) => some (fsm3, out :: outs)

/-- The successive values of current_state while FSM::run processes a list
of delivered events (the value before the first event included); none if
any iteration crashes. -/
def FSM.stateTrace (fsm : FSM) : List Event → Option (List (Option StateDescriptor))
  | [] => some [fsm.current_state]
  | e :: es =>
    match fsm.step e with
    | none => none
    | some (fsm2, _) =>
      match fsm2.stateTrace es with
      | none => none
      | some tr => some (fsm.current_state :: tr)

/-- The four-row transition table in the words of the spec (refinement
side, for comparison with TransitionManager.get_next_state): the four
listed rows map to their next state, every other pair is illegal. -/
def spec_next_state : StateDescriptor → Event → Option StateDescriptor
  | StateDescriptor.IDLE, Event.INCOMING_CALL => some StateDescriptor.PHONE_RING
  | StateDescriptor.PHONE_RING, Event.CALL_ANSWERED => some StateDescriptor.IN_CALL
  | StateDescriptor.PHONE_RING, Event.CALL_DECLINED => some StateDescriptor.IDLE
  | StateDescriptor.IN_CALL, Event.CALL_ENDED => some StateDescriptor.IDLE
  | _, _ => none

/-- Claim C2: the transition table implements exactly the four-row
specification; the four listed (state, event) pairs map to their listed
next states and every other pair in the 3x4 space yields the
illegal-transition outcome (a null cell, modelled as none). -/
theorem transition_table_exact :
    ∀ sd e, TransitionManager.get_next_state sd e = spec_next_state sd e := by
  decide

/-- Claim C4: starting from the initial state Idle, the literal sequence
[IncomingCall, CallAnswered, CallEnded] visits exactly Idle, PhoneRinging,
InCall, Idle in that order and emits exactly the three side-effect lines of
the three accepted events, ending back at Idle. -/
theorem happy_path_trace :
    FSM.init.stateTrace [Event.INCOMING_CALL, Event.CALL_ANSWERED, Event.CALL_ENDED] =
      some [some StateDescriptor.IDLE, some StateDescriptor.PHONE_RING,
            some StateDescriptor.IN_CALL, some StateDescriptor.IDLE] ∧
    FSM.init.runEvents [Event.INCOMING_CALL, Event.CALL_ANSWERED, Event.CALL_ENDED] =
      some (FSM.init,
            ["Phone started ringing\n", "Call answered. Starting conversation\n",
             "Call ended\n"]) := by
  exact ⟨rfl, rfl⟩

/-- Claim C1 (the code crashes instead): in state Idle, processing the
unaccepted event CallAnswered does not leave the machine unchanged with an
error surfaced; do_op calls a null handler (undefined behavior) and the run
iteration aborts. -/
theorem reject_not_handled :
    State.do_op StateDescriptor.IDLE Event.CALL_ANSWERED = none ∧
    FSM.step ⟨some StateDescriptor.IDLE⟩ Event.CALL_ANSWERED = none := by
  exact ⟨rfl, rfl⟩

/-- Claim C3 (the code crashes instead): every (handler, event) pair
outside the handler's accepted set makes do_op call a null function pointer
(modelled as none) rather than fail with a structured UnhandledEventError —
no such error type exists anywhere in the code. -/
theorem handlers_crash_on_unaccepted :
    Idle.do_op Event.CALL_ANSWERED = none ∧
    Idle.do_op Event.CALL_DECLINED = none ∧
    Idle.do_op Event.CALL_ENDED = none ∧
    PhoneRinging.do_op Event.INCOMING_CALL = none ∧
    PhoneRinging.do_op Event.CALL_ENDED = none ∧
    InCall.do_op Event.INCOMING_CALL = none ∧
    InCall.do_op Event.CALL_ANSWERED = none ∧
    InCall.do_op Event.CALL_DECLINED = none := by
  decide

/-- Claim C8 (the code's loop dies instead): the run loop has no error
handling, so delivering a rejected event (CallAnswered while Idle) makes
the iteration crash and the loop terminate rather than continue. -/
theorem loop_dies_on_rejected_event :
    FSM.init.runEvents [Event.CALL_ANSWERED] = none := rfl

/-- Running a concatenation of event lists when both halves succeed: the
second runs from the machine the first reaches, and the printed lines
concatenate. -/
theorem runEvents_append (l1 : List Event) :
    ∀ (f f1 f2 : FSM) (o1 o2 : List String) (l2 : List Event),
      f.runEvents l1 = some (f1, o1) → f1.runEvents l2 = some (f2, o2) →
      f.runEvents (l1 ++ l2) = some (f2, o1 ++ o2) := by
  induction l1 with
  | nil =>
    intro f f1 f2 o1 o2 l2 h1 h2
    simp only [FSM.runEvents, Option.some.injEq, Prod.mk.injEq] at h1
    obtain ⟨rfl, rfl⟩ := h1
    simpa using h2
  | cons e es ih =>
    intro f f1 f2 o1 o2 l2 h1 h2
    cases hs : f.step e with
    | none => simp [FSM.runEvents, hs] at h1
    | some p =>
      obtain ⟨fm, out⟩ := p
      simp only [FSM.runEvents, hs] at h1
      cases hr : fm.runEvents es with
      | none => simp [hr] at h1
      | some q =>
        obtain ⟨fa, outs⟩ := q
        simp only [hr, Option.some.injEq, Prod.mk.injEq] at h1
        obtain ⟨rfl, rfl⟩ := h1
        have hmid := ih fm _ f2 outs o2 l2 hr h2
        simp only [List.cons_append, FSM.runEvents, hs, List.append_eq, hmid]

/-- The accepted 3-event cycle delivered by the event source. -/
def cycle_events : List Event :=
  [Event.INCOMING_CALL, Event.CALL_ANSWERED, Event.CALL_ENDED]

/-- The accepted 3-event cycle repeated n times. -/
def repeat_cycle : Nat → List Event
  | 0 => []
  | Nat.succ k => cycle_events ++ repeat_cycle k

/-- Claim C5: repeating the accepted 3-event cycle n times from the initial
Idle machine succeeds, returns the machine to Idle (hence to Idle after
each of the n cycles, instantiating at every count up to n) and prints
exactly 3 * n side-effect lines. -/
theorem cycle_property : ∀ n : Nat, ∃ outs : List String,
    FSM.init.runEvents (repeat_cycle n) = some (FSM.init, outs) ∧
    outs.length = 3 * n := by
  intro n
  induction n with
  | zero => exact ⟨[], rfl, rfl⟩
  | succ k ih =>
    obtain ⟨outs, hrun, hlen⟩ := ih
    refine ⟨["Phone started ringing\n", "Call answered. Starting conversation\n",
             "Call ended\n"] ++ outs, ?_, ?_⟩
    · exact runEvents_append cycle_events FSM.init FSM.init FSM.init
        ["Phone started ringing\n", "Call answered. Starting conversation\n",
         "Call ended\n"] outs (repeat_cycle k) rfl hrun
    · simp only [List.length_append, List.length_cons, List.length_nil, hlen]
      omega

/-- Handler acceptance and the transition table's non-null cells coincide
on their defined side: whenever do_op succeeds on (sd, e), the table holds
a next state for (sd, e). -/
theorem do_op_accepted_has_next :
    ∀ sd e, (State.do_op sd e).isSome → (TransitionManager.get_next_state sd e).isSome := by
  decide

/-- Along any successful trace from a machine holding a non-null state,
every recorded current_state value is non-null. -/
theorem stateTrace_all_valid (evs : List Event) :
    ∀ (sd : StateDescriptor) (tr : List (Option StateDescriptor)),
      FSM.stateTrace ⟨some sd⟩ evs = some tr →
      ∀ x ∈ tr, ∃ s, x = some s := by
  induction evs with
  | nil =>
    intro sd tr h x hx
    simp only [FSM.stateTrace, Option.some.injEq] at h
    subst h
    simp only [List.mem_singleton] at hx
    exact ⟨sd, hx⟩
  | cons e es ih =>
    intro sd tr h x hx
    cases hd : State.do_op sd e with
    | none => simp [FSM.stateTrace, FSM.step, hd] at h
    | some out =>
      have hnext : (TransitionManager.get_next_state sd e).isSome :=
        do_op_accepted_has_next sd e (by simp [hd])
      obtain ⟨s2, hs2⟩ := Option.isSome_iff_exists.mp hnext
      simp only [FSM.stateTrace, FSM.step, hd, hs2] at h
      cases ht : FSM.stateTrace ⟨some s2⟩ es with
      | none => rw [ht] at h; simp at h
      | some tr2 =>
        rw [ht] at h
        simp only [Option.some.injEq] at h
        subst h
        rcases List.mem_cons.mp hx with hx | hx
        · exact ⟨sd, hx⟩
        · exact ih s2 tr2 ht x hx

/-- A successful trace starts with the machine's current_state. -/
theorem stateTrace_head (fsm : FSM) (evs : List Event)
    (tr : List (Option StateDescriptor)) (h : fsm.stateTrace evs = some tr) :
    tr.head? = some fsm.current_state := by
  cases evs with
  | nil =>
    simp only [FSM.stateTrace, Option.some.injEq] at h
    subst h; rfl
  | cons e es =>
    cases hs : fsm.step e with
    | none => simp [FSM.stateTrace, hs] at h
    | some p =>
      obtain ⟨fm, out⟩ := p
      simp only [FSM.stateTrace, hs] at h
      cases ht : fm.stateTrace es with
      | none => rw [ht] at h; simp at h
      | some tr2 =>
        rw [ht] at h
        simp only [Option.some.injEq] at h
        subst h; rfl

/-- Claim C6: the FSM holds a single current_state reference which starts
at Idle, and along any successfully processed event sequence every value
the reference takes is a non-null reference to one of the three state
instances (never absent, never invalid). -/
theorem fsm_single_valid_state (evs : List Event)
    (tr : List (Option StateDescriptor))
    (h : FSM.init.stateTrace evs = some tr) :
    tr.head? = some (some StateDescriptor.IDLE) ∧
    ∀ x ∈ tr, ∃ sd, x = some sd :=
  ⟨stateTrace_head FSM.init evs tr h,
   stateTrace_all_valid evs StateDescriptor.IDLE tr h⟩

/-- Witness for fsm_single_valid_state at the concrete trace of the single
accepted event IncomingCall. -/
theorem fsm_single_valid_state_witness :
    FSM.init.stateTrace [Event.INCOMING_CALL] =
      some [some StateDescriptor.IDLE, some StateDescriptor.PHONE_RING] ∧
    ([some StateDescriptor.IDLE, some StateDescriptor.PHONE_RING].head? =
        some (some StateDescriptor.IDLE) ∧
      ∀ x ∈ [some StateDescriptor.IDLE, some StateDescriptor.PHONE_RING],
        ∃ sd, x = some sd) :=
  ⟨rfl, fsm_single_valid_state [Event.INCOMING_CALL]
    [some StateDescriptor.IDLE, some StateDescriptor.PHONE_RING] rfl⟩

/-- After n calls from a counter value below 3, no call throws and the
counter ends at (c + n) % 3. -/
theorem run_get_event_counter (n : Nat) :
    ∀ c : Nat, c < 3 → ∃ evs, run_get_event c n = some (evs, (c + n) % 3) := by
  induction n with
  | zero =>
    intro c hc
    exact ⟨[], by simp [run_get_event, Nat.mod_eq_of_lt hc]⟩
  | succ k ih =>
    intro c hc
    interval_cases c
    · obtain ⟨evs, hrec⟩ := ih 1 (by norm_num)
      refine ⟨Event.INCOMING_CALL :: evs, ?_⟩
      have h1 : (1 + k) % 3 = (0 + (k + 1)) % 3 := by omega
      simp only [run_get_event, get_event, hrec, h1]
    · obtain ⟨evs, hrec⟩ := ih 2 (by norm_num)
      refine ⟨Event.CALL_ANSWERED :: evs, ?_⟩
      have h1 : (2 + k) % 3 = (1 + (k + 1)) % 3 := by omega
      simp only [run_get_event, get_event, hrec, h1]
    · obtain ⟨evs, hrec⟩ := ih 0 (by norm_num)
      refine ⟨Event.CALL_ENDED :: evs, ?_⟩
      have h1 : (0 + k) % 3 = (2 + (k + 1)) % 3 := by omega
      simp only [run_get_event, get_event, hrec, h1]

/-- The n-th produced event in the words of the spec: position n mod 3 in
the cycle IncomingCall, CallAnswered, CallEnded. -/
def spec_nth_event (n : Nat) : Event :=
  if n % 3 = 0 then Event.INCOMING_CALL
  else if n % 3 = 1 then Event.CALL_ANSWERED
  else Event.CALL_ENDED

/-- The event returned by the n-th call to get_event (counting from 0, the
counter starting at 0): run the first n calls, then make one more. -/
def nth_event (n : Nat) : Option Event :=
  match run_get_event 0 n with
  | none => none
  | some (_, c) => Option.map Prod.fst (get_event c)

/-- Claim C7: get_event produces the strictly cyclic sequence IncomingCall,
CallAnswered, CallEnded, repeating: the n-th call returns exactly the event
at position n mod 3 of the cycle, and CallDeclined is never produced. -/
theorem get_event_cyclic : ∀ n : Nat,
    nth_event n = some (spec_nth_event n) ∧
    nth_event n ≠ some Event.CALL_DECLINED := by
  intro n
  obtain ⟨evs, h⟩ := run_get_event_counter n 0 (by norm_num)
  have hn : (0 + n) % 3 = n % 3 := by omega
  rw [hn] at h
  have h3 : n % 3 = 0 ∨ n % 3 = 1 ∨ n % 3 = 2 := by omega
  rcases h3 with h3 | h3 | h3 <;>
    simp [nth_event, spec_nth_event, h, h3, get_event]

/-- Claim C9: with get_event's static counter starting at 0, the counter is
below 3 on entry to every call, so the throwing fall-through branch is
unreachable and every call returns an event. -/
theorem get_event_total : ∀ n : Nat, ∃ evs c,
    run_get_event 0 n = some (evs, c) ∧ c < 3 ∧ (get_event c).isSome := by
  intro n
  obtain ⟨evs, h⟩ := run_get_event_counter n 0 (by norm_num)
  have hn : (0 + n) % 3 = n % 3 := by omega
  rw [hn] at h
  refine ⟨evs, n % 3, h, by omega, ?_⟩
  have h3 : n % 3 = 0 ∨ n % 3 = 1 ∨ n % 3 = 2 := by omega
  rcases h3 with h3 | h3 | h3 <;> simp [h3, get_event]
